import Mathlib

/-!
Verification of the SQL value-tuple parser and reconstructor of the
Normalized repository (src/sql_repair_fixed.py, src/cli_interactive.py).
The Python functions are shallowly embedded as executable Lean functions
over `List Char` (one `Char` per Python character); strings are converted
with `String.toList` at the boundary.
-/

namespace Normalized

/-- ASCII whitespace, the model of Python's notion of whitespace used by
`str.strip`, `str.split` and the regex class backslash-s. -/
def isPyWs (c : Char) : Bool :=
  c = ' ' || c = '\t' || c = '\n' || c = '\r' || c = '\x0b' || c = '\x0c'

/-- Drop matching elements from the right end of a list. -/
def rdropWhile (p : Char → Bool) (l : List Char) : List Char :=
  (l.reverse.dropWhile p).reverse

/-- Model of Python `str.strip()` (ASCII whitespace). -/
def pyStrip (l : List Char) : List Char :=
  rdropWhile isPyWs (l.dropWhile isPyWs)

/-- Model of Python `str.upper()` (ASCII range). -/
def pyUpper (l : List Char) : List Char := l.map Char.toUpper

/-- Model of Python `str.lower()` (ASCII range). -/
def pyLower (l : List Char) : List Char := l.map Char.toLower

/-- Decimal digit, the model of the regex class backslash-d. -/
def isDig (c : Char) : Bool := 48 ≤ c.toNat && c.toNat ≤ 57

/-- Model of Python substring membership `needle in hay`. -/
def containsSub (needle : List Char) : List Char → Bool
  | [] => needle.isEmpty
  | c :: t => needle.isPrefixOf (c :: t) || containsSub needle t

/-- The numeric SQL type markers of `sanitize_sql_value_with_type`. -/
def numTypeMarkers : List (List Char) :=
  ["INT".toList, "DECIMAL".toList, "FLOAT".toList, "REAL".toList, "NUMERIC".toList]

/-- `any(num_type in column_type.upper() for num_type in [...])` from
`sanitize_sql_value_with_type` (src/sql_repair_fixed.py:314-317). -/
def isNumericType (t : List Char) : Bool :=
  numTypeMarkers.any (fun m => containsSub m (pyUpper t))

/-- Body of the numeric-literal regex, after the optional sign:
digits with an optional dot and trailing digits, or a dot with digits. -/
def numBody (cs : List Char) : Bool :=
  let ds := cs.takeWhile isDig
  let rest := cs.dropWhile isDig
  if ds.isEmpty then
    match cs with
    | c :: t => c == '.' && !t.isEmpty && t.all isDig
    | [] => false
  else
    match rest with
    | [] => true
    | c :: t => c == '.' && t.all isDig

/-- The anchored numeric-literal pattern of `sanitize_sql_value_with_type`
(src/sql_repair_fixed.py:321): optional sign, digits, optional single dot. -/
def matchNumber (l : List Char) : Bool :=
  match l with
  | [] => false
  | c :: r => if c == '-' || c == '+' then numBody r else numBody (c :: r)

/-- Strip one layer of surrounding matching quotes
(src/sql_repair_fixed.py:307-310). A single quote character counts as both
its own start and end, as in Python, and yields the empty string. -/
def dequoteOnce (v : List Char) : List Char :=
  match v.head?, v.getLast? with
  | some a, some b =>
      if (a = '\'' ∧ b = '\'') ∨ (a = '"' ∧ b = '"') then (v.drop 1).dropLast else v
  | _, _ => v

/-- ASCII control characters removed first (src/sql_repair_fixed.py:340). -/
def isCtrl1 (c : Char) : Bool :=
  c.toNat ≤ 0x08 || (0x0e ≤ c.toNat && c.toNat ≤ 0x1f) || c.toNat = 0x7f

/-- Extended control characters removed second (src/sql_repair_fixed.py:343). -/
def isCtrl2 (c : Char) : Bool := 0x80 ≤ c.toNat && c.toNat ≤ 0x9f

/-- Newlines, carriage returns and tabs become spaces
(src/sql_repair_fixed.py:346-348). -/
def nlToSpace (c : Char) : Char :=
  if c = '\n' || c = '\r' || c = '\t' then ' ' else c

/-- Collapse each maximal whitespace run to a single space, the model of
`re.sub(r"  +", " ", value)` with the whitespace class. -/
def collapseWsAux (pws : Bool) : List Char → List Char
  | [] => []
  | c :: r =>
      if isPyWs c then
        if pws then collapseWsAux true r else ' ' :: collapseWsAux true r
      else c :: collapseWsAux false r

/-- Whitespace-run collapsing (src/sql_repair_fixed.py:349). -/
def collapseWs (l : List Char) : List Char := collapseWsAux false l

/-- The string branch of `sanitize_sql_value_with_type`
(src/sql_repair_fixed.py:338-369): strip control characters, normalize
whitespace, truncate to 65535 characters, remove single and double quotes,
wrap in single quotes. -/
def stringClean (v : List Char) : List Char :=
  let v1 := v.filter (fun c => !isCtrl1 c)
  let v2 := v1.filter (fun c => !isCtrl2 c)
  let v3 := v2.map nlToSpace
  let v4 := pyStrip (collapseWs v3)
  let v5 := v4.take 65535
  let v6 := (v5.filter (fun c => c ≠ '\'')).filter (fun c => c ≠ '"')
  '\'' :: v6 ++ ['\'']

/-- The literal `NULL`. -/
def nullLit : List Char := "NULL".toList

/-- Embedding of `sanitize_sql_value_with_type(value, column_type)`
(src/sql_repair_fixed.py:293-369). An absent column type is `none`. -/
def sanitizeWithType (value : List Char) (columnType : Option (List Char)) : List Char :=
  if (pyStrip value).isEmpty then nullLit
  else
    let v := pyStrip value
    if pyUpper v = nullLit then nullLit
    else
      let w := dequoteOnce v
      match columnType with
      | some t => if isNumericType t && matchNumber w then w else stringClean w
      | none => if matchNumber w then w else stringClean w

/-- Embedding of `sanitize_sql_value(value)` (src/sql_repair_fixed.py:286-290). -/
def sanitizeValue (value : List Char) : List Char := sanitizeWithType value none

example : sanitizeWithType "42".toList (some "INT".toList) = "42".toList := by decide
example : sanitizeWithType "42".toList (some "VARCHAR(10)".toList) = "'42'".toList := by decide
example : sanitizeWithType "".toList none = "NULL".toList := by decide
example : sanitizeWithType " null ".toList none = "NULL".toList := by decide
example : sanitizeWithType "O'Connor".toList none = "'OConnor'".toList := by decide
example : sanitizeWithType "'a b'".toList none = "'a b'".toList := by decide
example : sanitizeWithType "-3.5".toList none = "-3.5".toList := by decide
example : sanitizeWithType "+.5".toList (some "DECIMAL(4,2)".toList) = "+.5".toList := by decide
example : sanitizeWithType "12.3.4".toList none = "'12.3.4'".toList := by decide

/-! ## Value tokenizer (`extract_filtered_values`, src/sql_repair_fixed.py:380-423) -/

/-- Scanner state of the hand-written tokenizer: accumulated fields, the
field under construction, quote state, and the two nesting counters
(Python integers, so they may go negative). -/
structure TokSt where
  values : List (List Char)
  current : List Char
  inQuotes : Bool
  quoteChar : Option Char
  braceDepth : Int
  parenDepth : Int
deriving DecidableEq

/-- One step of the tokenizer loop (src/sql_repair_fixed.py:394-419).
`prev` is the character at the previous index of the scanned string, used
for the backslash-escape check. -/
def tokStep (prev : Option Char) (c : Char) (st : TokSt) : TokSt :=
  if (c = '\'' ∨ c = '"') ∧ prev ≠ some '\\' then
    let st' :=
      if !st.inQuotes then { st with inQuotes := true, quoteChar := some c }
      else if some c = st.quoteChar then { st with inQuotes := false, quoteChar := none }
      else st
    { st' with current := st'.current ++ [c] }
  else if c = '{' then { st with braceDepth := st.braceDepth + 1, current := st.current ++ [c] }
  else if c = '}' then { st with braceDepth := st.braceDepth - 1, current := st.current ++ [c] }
  else if c = '(' then { st with parenDepth := st.parenDepth + 1, current := st.current ++ [c] }
  else if c = ')' then { st with parenDepth := st.parenDepth - 1, current := st.current ++ [c] }
  else if c = ',' ∧ st.inQuotes = false ∧ st.braceDepth = 0 ∧ st.parenDepth = 0 then
    { st with values := st.values ++ [pyStrip st.current], current := [] }
  else { st with current := st.current ++ [c] }

/-- Run the tokenizer loop over the remaining characters. -/
def tokRun : List Char → Option Char → TokSt → TokSt
  | [], _, st => st
  | c :: r, prev, st => tokRun r (some c) (tokStep prev c st)

/-- Initial scanner state. -/
def tokInit : TokSt := ⟨[], [], false, none, 0, 0⟩

/-- Split the interior of a tuple into top-level comma-separated fields
(src/sql_repair_fixed.py:386-423); the leftover field is appended only
when its stripped form is non-empty. -/
def splitTopLevel (interior : List Char) : List (List Char) :=
  let st := tokRun interior none tokInit
  st.values ++ (if (pyStrip st.current).isEmpty then [] else [pyStrip st.current])

example : splitTopLevel "1001, 'a, b', c".toList
    = ["1001".toList, "'a, b'".toList, ['c']] := by decide
example : splitTopLevel "".toList = [] := by decide
example : splitTopLevel "a,,b".toList = [['a'], [], ['b']] := by decide
example : splitTopLevel "1,".toList = [['1']] := by decide
example : splitTopLevel "{1,2}, (3,4), x".toList
    = ["{1,2}".toList, "(3,4)".toList, ['x']] := by decide
example : splitTopLevel "'it\\'s ok', 2".toList = ["'it\\'s ok'".toList, ['2']] := by decide

/-! ## Column projector (src/sql_repair_fixed.py:425-438) -/

/-- `column_types[i] if column_types and i < len(column_types) else None`:
Python truthiness makes an empty list behave like an absent one. -/
def colTypeAt (columnTypes : Option (List (List Char))) (i : Nat) : Option (List Char) :=
  match columnTypes with
  | some ts => if !ts.isEmpty && i < ts.length then ts.get? i else none
  | none => none

/-- The projection loop of `extract_filtered_values`
(src/sql_repair_fixed.py:427-436): for each retained index in order, the
sanitized tuple value at that index when in bounds, `NULL` otherwise. -/
def projectSanitize (vals : List (List Char)) (kept : List Nat)
    (types : Option (List (List Char))) : List (List Char) :=
  kept.enum.map (fun p =>
    if p.2 < vals.length then sanitizeWithType (vals.getD p.2 []) (colTypeAt types p.1)
    else nullLit)

/-- Pure selection semantics of the projector, before sanitization:
the value at each retained index when in bounds, `NULL` otherwise. -/
def project (vals : List (List Char)) (kept : List Nat) : List (List Char) :=
  kept.map (fun idx => if idx < vals.length then vals.getD idx [] else nullLit)

/-- Embedding of `extract_filtered_values(value_block, kept_indices,
column_types)` (src/sql_repair_fixed.py:372-438). -/
def extractFilteredValues (valueBlock : List Char) (kept : List Nat)
    (types : Option (List (List Char))) : List Char :=
  let b := pyStrip valueBlock
  let b' :=
    if b.head? = some '(' ∧ b.getLast? = some ')' then (b.drop 1).dropLast else b
  let vals := splitTopLevel b'
  '(' :: List.intercalate ", ".toList (projectSanitize vals kept types) ++ [')']

example : extractFilteredValues "(1001, 'a', 'b')".toList [0, 2] none
    = "(1001, 'b')".toList := by decide
example : extractFilteredValues "(1, 'x')".toList [0, 5] none
    = "(1, NULL)".toList := by decide

/-! ## Statement reconstructor (`extract_insert_statements`,
src/sql_repair_fixed.py:441-540) -/

/-- Helper for `pySplitlines`: accumulate the current line. -/
def splitlinesGo (cur : List Char) : List Char → List (List Char)
  | [] => [cur]
  | c :: r =>
      if c = '\n' then
        match r with
        | [] => [cur]
        | _ => cur :: splitlinesGo [] r
      else splitlinesGo (cur ++ [c]) r

/-- Model of Python `str.splitlines()` on newline-separated text: no
trailing empty line for text ending in a newline, and the empty text
yields no lines. -/
def pySplitlines (s : List Char) : List (List Char) :=
  if s.isEmpty then [] else splitlinesGo [] s

example : pySplitlines "a\nb\n".toList = [['a'], ['b']] := by decide
example : pySplitlines "".toList = [] := by decide
example : pySplitlines "\n\n".toList = [[], []] := by decide

/-- The literal `INSERT INTO` tested against the uppercased line. -/
def insertIntoLit : List Char := "INSERT INTO".toList

/-- Case-insensitive literal matcher: does `s` start with `lit` (given
uppercased) up to ASCII case? -/
def eatCI (lit s : List Char) : Option (List Char) :=
  if (s.take lit.length).map Char.toUpper = lit then some (s.drop lit.length) else none

/-- Attempt the pattern `VALUES[ws]*"("[anything]")"` at the head of `s`,
returning the parenthesized group, which extends to the last `)` of `s`
because the regex `.*` is greedy. -/
def tryValuesAt (s : List Char) : Option (List Char) :=
  match eatCI "VALUES".toList s with
  | none => none
  | some r =>
      match r.dropWhile isPyWs with
      | '(' :: rest =>
          let revTail := rest.reverse.dropWhile (fun c => c ≠ ')')
          if revTail.isEmpty then none else some ('(' :: revTail.reverse)
      | _ => none

/-- Model of `re.search(r"VALUES..s*((.*))", stripped)` from
src/sql_repair_fixed.py:470-472: the earliest position where the pattern
matches wins. -/
def searchValues : List Char → Option (List Char)
  | [] => none
  | c :: r =>
      match tryValuesAt (c :: r) with
      | some g => some g
      | none => searchValues r

example : searchValues "INSERT INTO t VALUES (1, (2)), x)".toList
    = some "(1, (2)), x)".toList := by decide
example : searchValues "insert into t values 1, 2".toList = none := by decide

/-- The bare-value-tuple test `re.match(r"^..(..s*(..d+)..s*,", stripped)`
(src/sql_repair_fixed.py:483): an opening paren, optional whitespace, at
least one digit, optional whitespace, then a comma. -/
def bareTupleMatch (l : List Char) : Bool :=
  match l with
  | '(' :: r =>
      let r1 := r.dropWhile isPyWs
      let ds := r1.takeWhile isDig
      let r2 := (r1.dropWhile isDig).dropWhile isPyWs
      !ds.isEmpty && r2.head? = some ','
  | _ => false

/-- Remove one trailing comma from a detected tuple line
(src/sql_repair_fixed.py:486-487). -/
def cleanBare (l : List Char) : List Char :=
  if l.getLast? = some ',' then l.dropLast else l

/-- `f"INSERT INTO {table_name} ({columns_str}) VALUES {values_part};"`. -/
def mkStatement (table colsStr valuesPart : List Char) : List Char :=
  "INSERT INTO ".toList ++ table ++ " (".toList ++ colsStr ++ ") VALUES ".toList
    ++ valuesPart ++ [';']

/-- The detection pass of `extract_insert_statements`
(src/sql_repair_fixed.py:464-488): existing INSERT statements are rebuilt
from their VALUES block, and sufficiently long lines opening a tuple with
an integer field are collected as bare value tuples. -/
def detectLoop (table colsStr : List Char) : List (List Char) → List (List Char) × List (List Char)
  | [] => ([], [])
  | line :: rest =>
      let (es, vs) := detectLoop table colsStr rest
      let stripped := pyStrip line
      if insertIntoLit.isPrefixOf (pyUpper stripped) then
        match searchValues stripped with
        | some vp => (mkStatement table colsStr vp :: es, vs)
        | none => (es, vs)
      else if stripped.head? = some '(' ∧ stripped.length > 10 then
        if bareTupleMatch stripped then (es, cleanBare stripped :: vs) else (es, vs)
      else (es, vs)

/-- Emission of one retained bare tuple (src/sql_repair_fixed.py:512-529):
with a non-empty kept-index list the tuple is re-tokenized, projected and
sanitized; otherwise (Python truthiness: `None` or the empty list) the
original block is used as-is. -/
def emitTuple (table colsStr : List Char) (keptIndices : Option (List Nat))
    (columnTypes : Option (List (List Char))) (vb : List Char) : List Char :=
  match keptIndices with
  | some (k :: ks) => mkStatement table colsStr (extractFilteredValues vb (k :: ks) columnTypes)
  | _ => mkStatement table colsStr vb

/-- Statement list built by `extract_insert_statements`
(src/sql_repair_fixed.py:441-540). `ask` models the interactive
`ask_processing_option` collaborator consulted when `max_values` is 0 and
bare tuples exist; it receives the tuple count and returns the resolved
limit (0 meaning all). The cap-and-emit phase
(src/sql_repair_fixed.py:497-529) applied to a detection result. -/
def assembleStatements (table colsStr : List Char) (maxValues : Nat)
    (keptIndices : Option (List Nat)) (columnTypes : Option (List (List Char)))
    (ask : Nat → Nat) (dres : List (List Char) × List (List Char)) : List (List Char) :=
  let maxV := if maxValues = 0 ∧ dres.2 ≠ [] then ask dres.2.length else maxValues
  let retained := if maxV > 0 ∧ dres.2.length > maxV then dres.2.take maxV else dres.2
  dres.1 ++ retained.map (emitTuple table colsStr keptIndices columnTypes)

/-- Statement list built by `extract_insert_statements`: detection pass,
cap resolution and truncation, then emission. -/
def extractInsertList (sqlText table : List Char) (columnNames : List (List Char))
    (maxValues : Nat) (keptIndices : Option (List Nat))
    (columnTypes : Option (List (List Char))) (ask : Nat → Nat) : List (List Char) :=
  assembleStatements table (List.intercalate ", ".toList columnNames) maxValues
    keptIndices columnTypes ask
    (detectLoop table (List.intercalate ", ".toList columnNames) (pySplitlines sqlText))

/-- Embedding of `extract_insert_statements`: the newline-joined statement
list (src/sql_repair_fixed.py:540). -/
def extractInsertStatements (sqlText table : List Char) (columnNames : List (List Char))
    (maxValues : Nat) (keptIndices : Option (List Nat))
    (columnTypes : Option (List (List Char))) (ask : Nat → Nat) : List Char :=
  List.intercalate ['\n'] (extractInsertList sqlText table columnNames maxValues keptIndices columnTypes ask)

example : extractInsertStatements "(1, 'ACME Inc', 'tech')\n(2, 'Globex', 'fin')".toList
    "t".toList ["id".toList, "name".toList, "sector".toList] 0 none none (fun _ => 0)
    = ("INSERT INTO t (id, name, sector) VALUES (1, 'ACME Inc', 'tech');\n"
       ++ "INSERT INTO t (id, name, sector) VALUES (2, 'Globex', 'fin');").toList := by decide
example : extractInsertStatements "INSERT INTO old VALUES (1, 2);".toList
    "t".toList [['a'], ['b']] 0 none none (fun _ => 0)
    = "INSERT INTO t (a, b) VALUES (1, 2);".toList := by decide
example : extractInsertStatements "(1,2,3)".toList "t".toList [['a']] 1 none none (fun n => n)
    = [] := by decide
example : extractInsertStatements "hello".toList "t".toList [['a']] 0 none none (fun n => n)
    = [] := by decide

/-! ## Schema parsing (`parse_create_table` / `parse_from_values`,
src/sql_repair_fixed.py:42-127) -/

/-- ASCII word character, the model of the regex class backslash-w. -/
def isWordChar (c : Char) : Bool := c.isAlphanum || c = '_'

/-- Require at least one whitespace character, then skip the run. -/
def eatWs1 (s : List Char) : Option (List Char) :=
  match s with
  | c :: r => if isPyWs c then some (r.dropWhile isPyWs) else none
  | [] => none

/-- Attempt the CREATE TABLE pattern at the head of `s`: `CREATE`,
whitespace, `TABLE`, whitespace, an optional greedy `IF NOT EXISTS`
clause, a word (the table name), optional whitespace, `(`, then lazily up
to the first `)` (the column body). Returns (name, body). -/
def tryCreateAt (s : List Char) : Option (List Char × List Char) :=
  (eatCI "CREATE".toList s).bind fun s1 =>
  (eatWs1 s1).bind fun s2 =>
  (eatCI "TABLE".toList s2).bind fun s3 =>
  (eatWs1 s3).bind fun s4 =>
  let s5 :=
    match (eatCI "IF".toList s4).bind eatWs1 |>.bind (eatCI "NOT".toList)
        |>.bind eatWs1 |>.bind (eatCI "EXISTS".toList) |>.bind eatWs1 with
    | some s' => s'
    | none => s4
  let name := s5.takeWhile isWordChar
  if name.isEmpty then none
  else
    match (s5.dropWhile isWordChar).dropWhile isPyWs with
    | '(' :: r =>
        if ((r.dropWhile (fun c => c ≠ ')')).isEmpty : Bool) then none
        else some (name, r.takeWhile (fun c => c ≠ ')'))
    | _ => none

/-- Model of `re.search` for the CREATE TABLE pattern
(src/sql_repair_fixed.py:48-52): leftmost match wins. -/
def searchCreate : List Char → Option (List Char × List Char)
  | [] => none
  | c :: r =>
      match tryCreateAt (c :: r) with
      | some x => some x
      | none => searchCreate r

/-- Split at every occurrence of a separator character, keeping empty
pieces, the model of Python `str.split(sep)`. -/
def splitOnChar (sep : Char) : List Char → List (List Char)
  | [] => [[]]
  | c :: r =>
      if c = sep then [] :: splitOnChar sep r
      else
        match splitOnChar sep r with
        | [] => [[c]]
        | h :: t => (c :: h) :: t

/-- Whitespace-separated words, the model of Python `str.split()`. -/
def pyWordsAux (cur : List Char) : List Char → List (List Char)
  | [] => if cur.isEmpty then [] else [cur]
  | c :: r =>
      if isPyWs c then
        if cur.isEmpty then pyWordsAux [] r else cur :: pyWordsAux [] r
      else pyWordsAux (cur ++ [c]) r

/-- Python `str.split()` with no argument. -/
def pyWords (l : List Char) : List (List Char) := pyWordsAux [] l

/-- Strip all characters of a set from both ends, the model of Python
`str.strip(chars)`. -/
def stripChars (cs : List Char) (l : List Char) : List Char :=
  ((l.dropWhile (fun c => cs.contains c)).reverse.dropWhile (fun c => cs.contains c)).reverse

/-- One line of a CREATE TABLE body (src/sql_repair_fixed.py:62-71):
stripped, trailing commas removed, skipped when empty or a comment;
first word is the column name, the rest joined is the type, a single
word gets type `TEXT`. -/
def parseColLine (line : List Char) : Option (List Char × List Char) :=
  let l := ((pyStrip line).reverse.dropWhile (fun c => c = ',')).reverse
  if l.isEmpty || "--".toList.isPrefixOf l then none
  else
    match pyWords l with
    | p1 :: p2 :: ps => some (p1, List.intercalate [' '] (p2 :: ps))
    | _ => some (l, "TEXT".toList)

/-- The backtick character, written by code point. -/
def btick : Char := Char.ofNat 96

instance {ε α : Type} [DecidableEq ε] [DecidableEq α] : DecidableEq (Except ε α) := fun a b =>
  match a, b with
  | Except.ok x, Except.ok y => decidable_of_iff (x = y) ⟨congrArg _, Except.ok.inj⟩
  | Except.error x, Except.error y => decidable_of_iff (x = y) ⟨congrArg _, Except.error.inj⟩
  | Except.ok _, Except.error _ => isFalse (fun h => Except.noConfusion h)
  | Except.error _, Except.ok _ => isFalse (fun h => Except.noConfusion h)

/-- Embedding of `parse_from_values(sql_text)`
(src/sql_repair_fixed.py:79-127): infer column names from the first
backtick-bearing parenthesized line among the first 10 non-blank lines. -/
def parseFromValues (s : List Char) : Except (List Char) (List Char × List (List Char × List Char)) :=
  let lines := ((pySplitlines s).map pyStrip).filter (fun l => !l.isEmpty)
  if lines.isEmpty then Except.error "El archivo SQL esta vacio".toList
  else
    match (lines.take 10).find? (fun l => l.head? = some '(' && l.contains btick) with
    | none => Except.error "No se pudieron detectar nombres de columnas".toList
    | some colLine =>
        let content := stripChars ['(', ')', ' '] colLine
        let names := (splitOnChar ',' content).map (fun part =>
          let p := pyStrip part
          if p.head? = some btick && p.getLast? = some btick then stripChars [btick] p
          else stripChars ['\'', '"'] p)
        Except.ok ("imported_data".toList, names.map (fun n => (n, "VARCHAR(255)".toList)))

/-- Embedding of `parse_create_table(sql_text)`
(src/sql_repair_fixed.py:42-77): parse the CREATE TABLE block when one
exists, otherwise fall back to `parse_from_values`. -/
def parseCreateTable (s : List Char) : Except (List Char) (List Char × List (List Char × List Char)) :=
  match searchCreate s with
  | some (name, body) =>
      Except.ok (name, (splitOnChar '\n' (pyStrip body)).filterMap parseColLine)
  | none => parseFromValues s

example : parseCreateTable "CREATE TABLE t (\n  a INT,\n  b TEXT NOT NULL,\n  c\n);".toList
    = Except.ok ("t".toList,
        [(['a'], "INT".toList), (['b'], "TEXT NOT NULL".toList), (['c'], "TEXT".toList)]) := by decide
example : parseCreateTable "CREATE TABLE t ();".toList = Except.ok ("t".toList, []) := by decide
example : parseCreateTable "".toList = Except.error "El archivo SQL esta vacio".toList := by decide
example : parseCreateTable "SELECT 1;".toList
    = Except.error "No se pudieron detectar nombres de columnas".toList := by decide

/-! ## CSV header detection (`detect_header`, src/cli_interactive.py:59-114) -/

/-- The data-indicator substrings of `detect_header`
(src/cli_interactive.py:85-95). -/
def dataIndicators : List (List Char) :=
  ["@".toList, "http://".toList, "https://".toList, ".com".toList, ".net".toList,
   ".org".toList, "linkedin.com".toList, "/in/".toList, "www.".toList]

/-- Processing of a successfully read first line
(src/cli_interactive.py:74-109): strip, remove a leading BOM, strip
again, lowercase, and count indicator hits; any hit means headerless
(`None`, here `none`), otherwise header row 0. -/
def detectHeaderLine (firstLine : List Char) : Option Nat :=
  let l1 := pyStrip firstLine
  let l2 := pyStrip (l1.dropWhile (fun c => c = '\uFEFF'))
  let lower := pyLower l2
  let hits := (dataIndicators.filter (fun ind => containsSub ind lower)).length
  if hits > 0 then none else some 0

/-- Embedding of `detect_header(csv_path)`: the file read is modelled as
an `Except`-valued collaborator; any read failure yields header row 0
(src/cli_interactive.py:111-114). -/
def detectHeader (readFirstLine : Except Unit (List Char)) : Option Nat :=
  match readFirstLine with
  | Except.error _ => some 0
  | Except.ok l => detectHeaderLine l

example : detectHeader (Except.ok "john@acme.com,CEO".toList) = none := by decide
example : detectHeader (Except.ok "Name,Email,Role".toList) = some 0 := by decide
example : detectHeader (Except.ok "\uFEFF HTTPS://x ".toList) = none := by decide
example : detectHeader (Except.error ()) = some 0 := by decide

/-! ## Supporting lemmas -/

theorem sanitize_null (ct : Option (List Char)) : sanitizeWithType nullLit ct = nullLit := by
  have h1 : pyStrip nullLit = nullLit := by decide
  have h2 : nullLit.isEmpty = false := by decide
  have h3 : pyUpper nullLit = nullLit := by decide
  simp [sanitizeWithType, h1, h2, h3]

theorem insert_not_prefix_of_paren (l : List Char) (h : l.head? = some '(') :
    insertIntoLit.isPrefixOf (pyUpper l) = false := by
  cases l with
  | nil => simp at h
  | cons c r =>
      have hc : c = '(' := by simpa using h
      subst hc
      simp [pyUpper, insertIntoLit, List.isPrefixOf]

theorem splitlinesGo_no_newline (l : List Char) (h : '\n' ∉ l) :
    ∀ cur, splitlinesGo cur l = [cur ++ l] := by
  induction l with
  | nil => intro cur; simp [splitlinesGo]
  | cons c r ih =>
      intro cur
      have hc : c ≠ '\n' := fun he => h (he ▸ List.mem_cons_self c r)
      have hr : '\n' ∉ r := fun hm => h (List.mem_cons_of_mem c hm)
      simp [splitlinesGo, hc, ih hr]

theorem pySplitlines_single (l : List Char) (hne : l ≠ []) (h : '\n' ∉ l) :
    pySplitlines l = [l] := by
  simp [pySplitlines, List.isEmpty_iff, hne, splitlinesGo_no_newline l h []]

theorem pyStrip_ne_nil_src (l : List Char) (h : pyStrip l ≠ []) : l ≠ [] := by
  intro he; exact h (by simp [he, pyStrip, rdropWhile])

theorem intercalate_singleton (sep x : List Char) : List.intercalate sep [x] = x := by
  simp [List.intercalate]

theorem intercalate_nil_right (sep : List Char) :
    List.intercalate sep ([] : List (List Char)) = [] := by
  simp [List.intercalate]

/-! ## C5: column projector -/

/-- C5: for every value tuple and ordered retained-index sequence, the
projection loop of `extract_filtered_values` takes (and sanitizes) the
tuple value at each retained index when in bounds and substitutes `NULL`
otherwise, in retained-index order; the selection semantics on tuple
a,b,c with indices 0,2 yields a,c in that order. -/
theorem C5_projection (vals : List (List Char)) (kept : List Nat)
    (types : Option (List (List Char))) :
    projectSanitize vals kept types
      = (project vals kept).enum.map (fun p => sanitizeWithType p.2 (colTypeAt types p.1))
    ∧ project ["a".toList, "b".toList, "c".toList] [0, 2] = ["a".toList, "c".toList] := by
  constructor
  · unfold projectSanitize project
    rw [List.enum_map, List.map_map]
    apply List.map_congr_left
    rintro ⟨i, idx⟩ _
    by_cases h : idx < vals.length
    · simp [h, Prod.map]
    · simp [h, Prod.map, sanitize_null]
  · decide

/-! ## C3: bare-value-tuple classification -/

/-- C3 counterexample: the line `(1,2,3)` begins with an opening paren and
has a leading integer field followed by a comma, yet the reconstructor
emits nothing for it, because the code additionally requires the trimmed
line to be longer than 10 characters. -/
theorem C3_counterexample :
    (pyStrip "(1,2,3)".toList).head? = some '('
    ∧ bareTupleMatch (pyStrip "(1,2,3)".toList) = true
    ∧ extractInsertStatements "(1,2,3)".toList "t".toList [['a'], ['b'], ['c']] 1 none none
        (fun n => n) = [] := by decide

/-- C3 amended: every scanned line that, after trimming, begins with an
opening paren, is longer than 10 characters, and has a leading integer
field followed by a comma, is classified as a bare value tuple (trailing
comma removed) and, within the cap, re-emitted as an INSERT statement. -/
theorem C3_bare_tuple (line t colsStr : List Char) (cols : List (List Char))
    (ask : Nat → Nat) (rest : List (List Char))
    (hnl : '\n' ∉ line)
    (h1 : (pyStrip line).head? = some '(')
    (h2 : (pyStrip line).length > 10)
    (h3 : bareTupleMatch (pyStrip line) = true) :
    detectLoop t colsStr (line :: rest)
      = ((detectLoop t colsStr rest).1, cleanBare (pyStrip line) :: (detectLoop t colsStr rest).2)
    ∧ extractInsertStatements line t cols 1 none none ask
      = mkStatement t (List.intercalate ", ".toList cols) (cleanBare (pyStrip line)) := by
  have hni := insert_not_prefix_of_paren (pyStrip line) h1
  have hdet : ∀ r, detectLoop t colsStr (line :: r)
      = ((detectLoop t colsStr r).1, cleanBare (pyStrip line) :: (detectLoop t colsStr r).2) := by
    intro r
    simp [detectLoop, hni, h1, h2, h3]
  have hdetc : ∀ cs : List Char, detectLoop t cs (line :: [])
      = ([], [cleanBare (pyStrip line)]) := by
    intro cs
    have hni' := insert_not_prefix_of_paren (pyStrip line) h1
    simp [detectLoop, hni', h1, h2, h3]
  refine ⟨hdet rest, ?_⟩
  have hne : line ≠ [] := pyStrip_ne_nil_src line (by intro he; rw [he] at h1; simp at h1)
  have hsp : pySplitlines line = [line] := pySplitlines_single line hne hnl
  simp [extractInsertStatements, extractInsertList, hsp, hdetc, assembleStatements,
    emitTuple, intercalate_singleton]

/-- C3 witness: the concrete line `(1, 'abcd')` satisfies all amended
conditions and is re-emitted as an INSERT statement. -/
theorem C3_witness :
    extractInsertStatements "(1, 'abcd')".toList "t".toList [['a'], ['b']] 1 none none
        (fun n => n)
      = mkStatement "t".toList (List.intercalate ", ".toList [['a'], ['b']])
          (cleanBare (pyStrip "(1, 'abcd')".toList)) :=
  (C3_bare_tuple "(1, 'abcd')".toList "t".toList [] [['a'], ['b']] (fun n => n) []
    (by decide) (by decide) (by decide) (by decide)).2

/-! ## C9: INSERT line without a VALUES block -/

/-- C9: a line beginning (case-insensitively, after trim) with INSERT INTO
but containing no parenthesized VALUES block is silently dropped: it
contributes no statement and is not treated as a bare value tuple. -/
theorem C9_insert_without_values (line t colsStr : List Char) (cols : List (List Char))
    (ask : Nat → Nat) (rest : List (List Char))
    (hnl : '\n' ∉ line)
    (h1 : insertIntoLit.isPrefixOf (pyUpper (pyStrip line)) = true)
    (h2 : searchValues (pyStrip line) = none) :
    detectLoop t colsStr (line :: rest) = detectLoop t colsStr rest
    ∧ extractInsertStatements line t cols 1 none none ask = [] := by
  constructor
  · simp [detectLoop, h1, h2]
  · have hne : line ≠ [] := by
      intro he
      rw [he] at h1
      simp [pyStrip, rdropWhile, pyUpper, insertIntoLit, List.isPrefixOf] at h1
    have hsp : pySplitlines line = [line] := pySplitlines_single line hne hnl
    simp [extractInsertStatements, extractInsertList, hsp, detectLoop, h1, h2,
      assembleStatements, intercalate_nil_right]

/-- C9 witness: a concrete INSERT line with no parenthesized VALUES block
produces no output at all. -/
theorem C9_witness :
    extractInsertStatements "insert into x values 7, 8".toList "t".toList [['a']] 1 none none
        (fun n => n) = [] :=
  (C9_insert_without_values "insert into x values 7, 8".toList "t".toList [] [['a']]
    (fun n => n) [] (by decide) (by decide) (by decide)).2

/-! ## C4: prefix truncation at the tuple cap -/

/-- C4: with a positive cap smaller than the number of detected bare
tuples, the reconstructor keeps exactly the first `max_tuples` bare tuples
in source order and emits one statement per kept tuple in addition to the
existing-INSERT-derived ones. -/
theorem assemble_truncates (t colsStr : List Char) (maxV : Nat) (kept : Option (List Nat))
    (types : Option (List (List Char))) (ask : Nat → Nat)
    (dres : List (List Char) × List (List Char))
    (hpos : 0 < maxV) (hover : maxV < dres.2.length) :
    assembleStatements t colsStr maxV kept types ask dres
      = dres.1 ++ (dres.2.take maxV).map (emitTuple t colsStr kept types) := by
  have hne : ¬(maxV = 0 ∧ dres.2 ≠ []) := fun h => (Nat.pos_iff_ne_zero.mp hpos) h.1
  simp only [assembleStatements]
  rw [if_neg hne, if_pos ⟨hpos, hover⟩]

theorem C4_truncation_cap (sqlText t : List Char) (cols : List (List Char)) (maxV : Nat)
    (kept : Option (List Nat)) (types : Option (List (List Char))) (ask : Nat → Nat)
    (hpos : 0 < maxV)
    (hover : maxV < (detectLoop t (List.intercalate ", ".toList cols) (pySplitlines sqlText)).2.length) :
    extractInsertList sqlText t cols maxV kept types ask
      = (detectLoop t (List.intercalate ", ".toList cols) (pySplitlines sqlText)).1
        ++ ((detectLoop t (List.intercalate ", ".toList cols) (pySplitlines sqlText)).2.take maxV).map
            (emitTuple t (List.intercalate ", ".toList cols) kept types)
    ∧ (extractInsertList sqlText t cols maxV kept types ask).length
      = (detectLoop t (List.intercalate ", ".toList cols) (pySplitlines sqlText)).1.length + maxV := by
  have hmain := assemble_truncates t (List.intercalate ", ".toList cols) maxV kept types ask
    (detectLoop t (List.intercalate ", ".toList cols) (pySplitlines sqlText)) hpos hover
  refine ⟨hmain, ?_⟩
  show (assembleStatements t (List.intercalate ", ".toList cols) maxV kept types ask
    (detectLoop t (List.intercalate ", ".toList cols) (pySplitlines sqlText))).length = _
  rw [hmain, List.length_append, List.length_map, List.length_take,
    Nat.min_eq_left (Nat.le_of_lt hover)]

/-- C4 witness input: 150 identical bare value tuples. -/
def capText : List Char :=
  List.intercalate ['\n'] (List.replicate 150 "(1, 'abcdefgh')".toList)

set_option maxRecDepth 100000 in
/-- C4 witness: with 150 bare tuples and a cap of 100, exactly 100
tuple-derived statements are emitted in addition to the
existing-INSERT-derived ones. -/
theorem C4_witness :
    (extractInsertList capText "t".toList [['a'], ['b']] 100 none none (fun n => n)).length
      = (detectLoop "t".toList (List.intercalate ", ".toList [['a'], ['b']])
          (pySplitlines capText)).1.length + 100 :=
  (C4_truncation_cap capText "t".toList [['a'], ['b']] 100 none none (fun n => n)
    (by decide) (by decide)).2

/-! ## C6: output ordering and the empty result -/

/-- C6: the reconstructor's statement list is all existing-INSERT-derived
statements in source order, followed by the emissions of a prefix of the
bare tuples in source order; the returned text is the newline-joined
statement list, and it is empty when no line matched either pattern. -/
theorem C6_ordering (sqlText t : List Char) (cols : List (List Char)) (maxV : Nat)
    (kept : Option (List Nat)) (types : Option (List (List Char))) (ask : Nat → Nat) :
    (∃ bs, bs <+: (detectLoop t (List.intercalate ", ".toList cols) (pySplitlines sqlText)).2
        ∧ extractInsertList sqlText t cols maxV kept types ask
          = (detectLoop t (List.intercalate ", ".toList cols) (pySplitlines sqlText)).1
            ++ bs.map (emitTuple t (List.intercalate ", ".toList cols) kept types))
    ∧ extractInsertStatements sqlText t cols maxV kept types ask
      = List.intercalate ['\n'] (extractInsertList sqlText t cols maxV kept types ask)
    ∧ (detectLoop t (List.intercalate ", ".toList cols) (pySplitlines sqlText) = ([], [])
        → extractInsertStatements sqlText t cols maxV kept types ask = []) := by
  refine ⟨?_, rfl, ?_⟩
  · show ∃ bs, _ ∧ assembleStatements t (List.intercalate ", ".toList cols) maxV kept types ask
        (detectLoop t (List.intercalate ", ".toList cols) (pySplitlines sqlText)) = _
    simp only [assembleStatements]
    split <;> split
    all_goals first
      | exact ⟨_, List.take_prefix _ _, rfl⟩
      | exact ⟨_, List.prefix_refl _, rfl⟩
  · intro h
    show List.intercalate ['\n'] (assembleStatements t (List.intercalate ", ".toList cols)
        maxV kept types ask (detectLoop t (List.intercalate ", ".toList cols)
          (pySplitlines sqlText))) = []
    rw [h]
    simp [assembleStatements, intercalate_nil_right]

/-- C6 witness: a text in which no line matches either pattern yields the
empty string. -/
theorem C6_witness :
    extractInsertStatements "hello world".toList "t".toList [['a']] 0 none none (fun n => n)
      = [] :=
  (C6_ordering "hello world".toList "t".toList [['a']] 0 none none (fun n => n)).2.2 (by decide)

/-! ## C2: top-level comma splitting -/

/-- C2 counterexample: on interior `1, ` the field after the final
top-level comma is not appended (the code drops a trailing field that is
blank after stripping), so one top-level comma does not yield two fields. -/
theorem C2_counterexample :
    splitTopLevel "1, ".toList = [['1']]
    ∧ (splitTopLevel "1, ".toList).length ≠ 2 := by decide

/-- C2 amended: a comma terminates the current field exactly when no quote
is open and both depth counters are zero; the empty interior yields no
fields; and the trailing field is appended exactly when it is non-blank
after stripping (a blank trailing field is dropped, which is what makes
the empty interior yield the empty sequence). -/
theorem C2_tokenizer (st : TokSt) (prev : Option Char) (interior : List Char) :
    (st.inQuotes = false ∧ st.braceDepth = 0 ∧ st.parenDepth = 0 →
      tokStep prev ',' st
        = { st with values := st.values ++ [pyStrip st.current], current := [] })
    ∧ (¬(st.inQuotes = false ∧ st.braceDepth = 0 ∧ st.parenDepth = 0) →
      tokStep prev ',' st = { st with current := st.current ++ [','] })
    ∧ splitTopLevel [] = []
    ∧ (pyStrip (tokRun interior none tokInit).current ≠ [] →
      splitTopLevel interior
        = (tokRun interior none tokInit).values
            ++ [pyStrip (tokRun interior none tokInit).current])
    ∧ (pyStrip (tokRun interior none tokInit).current = [] →
      splitTopLevel interior = (tokRun interior none tokInit).values) := by
  have hq : ¬((',' = '\'' ∨ (',' : Char) = '"') ∧ prev ≠ some '\\') := by
    rintro ⟨h | h, -⟩ <;> exact absurd h (by decide)
  refine ⟨?_, ?_, by decide, ?_, ?_⟩
  · intro h
    unfold tokStep
    rw [if_neg hq, if_neg (by decide), if_neg (by decide), if_neg (by decide),
      if_neg (by decide), if_pos ⟨rfl, h.1, h.2.1, h.2.2⟩]
  · intro h
    unfold tokStep
    rw [if_neg hq, if_neg (by decide), if_neg (by decide), if_neg (by decide),
      if_neg (by decide), if_neg (fun hx => h ⟨hx.2.1, hx.2.2.1, hx.2.2.2⟩)]
  · intro h
    simp only [splitTopLevel]
    rw [if_neg (fun hx => h (List.isEmpty_iff.mp hx))]
  · intro h
    simp only [splitTopLevel]
    rw [if_pos (List.isEmpty_iff.mpr h), List.append_nil]

/-- C2 witness: the comma step at a clean state flushes the field, the
comma step inside quotes extends it, and a non-blank trailing field is
appended. -/
theorem C2_witness :
    tokStep none ',' ⟨[], ['a'], false, none, 0, 0⟩
      = ⟨[['a']], [], false, none, 0, 0⟩
    ∧ tokStep none ',' ⟨[], ['a'], true, some '\'', 0, 0⟩
      = ⟨[], ['a', ','], true, some '\'', 0, 0⟩
    ∧ splitTopLevel ['a']
      = (tokRun ['a'] none tokInit).values ++ [pyStrip (tokRun ['a'] none tokInit).current]
    ∧ splitTopLevel [' '] = (tokRun [' '] none tokInit).values := by
  refine ⟨?_, ?_, ?_, ?_⟩
  · rw [(C2_tokenizer ⟨[], ['a'], false, none, 0, 0⟩ none []).1 ⟨rfl, rfl, rfl⟩]
    decide
  · rw [(C2_tokenizer ⟨[], ['a'], true, some '\'', 0, 0⟩ none []).2.1
      (fun h => absurd h.1 (by decide))]
    decide
  · exact (C2_tokenizer tokInit none ['a']).2.2.2.1 (by decide)
  · exact (C2_tokenizer tokInit none [' ']).2.2.2.2 (by decide)

/-! ## Character-class lemmas for the sanitizer -/

theorem numBody_chars (cs : List Char) (h : numBody cs = true) :
    ∀ c ∈ cs, c = '.' ∨ isDig c = true := by
  simp only [numBody] at h
  by_cases hds : (cs.takeWhile isDig).isEmpty = true
  · rw [if_pos hds] at h
    cases cs with
    | nil => simp at h
    | cons c t =>
        simp only [Bool.and_eq_true, beq_iff_eq] at h
        intro x hx
        rcases List.mem_cons.mp hx with hx | hx
        · exact Or.inl (hx.trans h.1.1)
        · exact Or.inr (List.all_eq_true.mp h.2 x hx)
  · rw [if_neg hds] at h
    intro x hx
    rw [← List.takeWhile_append_dropWhile isDig cs] at hx
    rcases List.mem_append.mp hx with hx | hx
    · exact Or.inr (List.mem_takeWhile_imp hx)
    · cases hrest : cs.dropWhile isDig with
      | nil => rw [hrest] at hx; simp at hx
      | cons c t =>
          rw [hrest] at h hx
          simp only [Bool.and_eq_true, beq_iff_eq] at h
          rcases List.mem_cons.mp hx with hx | hx
          · exact Or.inl (hx.trans h.1)
          · exact Or.inr (List.all_eq_true.mp h.2 x hx)

theorem matchNumber_chars (l : List Char) (h : matchNumber l = true) :
    ∀ c ∈ l, c = '-' ∨ c = '+' ∨ c = '.' ∨ isDig c = true := by
  cases l with
  | nil => simp [matchNumber] at h
  | cons c r =>
      simp only [matchNumber] at h
      by_cases hs : (c == '-' || c == '+') = true
      · rw [if_pos hs] at h
        simp only [Bool.or_eq_true, beq_iff_eq] at hs
        intro x hx
        rcases List.mem_cons.mp hx with hx | hx
        · subst hx; rcases hs with hs | hs
          · exact Or.inl hs
          · exact Or.inr (Or.inl hs)
        · rcases numBody_chars r h x hx with h' | h'
          · exact Or.inr (Or.inr (Or.inl h'))
          · exact Or.inr (Or.inr (Or.inr h'))
      · rw [if_neg hs] at h
        intro x hx
        rcases numBody_chars (c :: r) h x hx with h' | h'
        · exact Or.inr (Or.inr (Or.inl h'))
        · exact Or.inr (Or.inr (Or.inr h'))

theorem matchNumber_no_quote (l : List Char) (h : matchNumber l = true) : '\'' ∉ l := by
  intro hm
  rcases matchNumber_chars l h _ hm with h' | h' | h' | h' <;> exact absurd h' (by decide)

/-- The characters a numeric literal may contain are inert for every step
of the string-sanitization pipeline. -/
theorem numchar_facts (c : Char) (h : c = '-' ∨ c = '+' ∨ c = '.' ∨ isDig c = true) :
    isCtrl1 c = false ∧ isCtrl2 c = false ∧ nlToSpace c = c ∧ isPyWs c = false
    ∧ c ≠ '\'' ∧ c ≠ '"' ∧ Char.toUpper c ≠ 'N' := by
  rcases h with h | h | h | h
  · subst h; refine ⟨by decide, by decide, by decide, by decide, by decide, by decide, by decide⟩
  · subst h; refine ⟨by decide, by decide, by decide, by decide, by decide, by decide, by decide⟩
  · subst h; refine ⟨by decide, by decide, by decide, by decide, by decide, by decide, by decide⟩
  · have hn : 48 ≤ c.toNat ∧ c.toNat ≤ 57 := by simpa [isDig] using h
    have hnotof : ∀ m : Nat, c.toNat = m → 48 ≤ m ∧ m ≤ 57 := fun m hm => hm ▸ hn
    have hne : ∀ d : Char, ¬(48 ≤ d.toNat ∧ d.toNat ≤ 57) → c ≠ d := by
      intro d hd he
      exact hd (he ▸ hn)
    refine ⟨?_, ?_, ?_, ?_, hne '\'' (by decide), hne '"' (by decide), ?_⟩
    · simp only [isCtrl1]
      simp only [Bool.or_eq_false_iff, Bool.and_eq_false_iff, decide_eq_false_iff_not]
      omega
    · simp only [isCtrl2]
      simp only [Bool.and_eq_false_iff, decide_eq_false_iff_not]
      omega
    · have h1 := hne '\n' (by decide)
      have h2 := hne '\r' (by decide)
      have h3 := hne '\t' (by decide)
      simp [nlToSpace, h1, h2, h3]
    · simp only [isPyWs]
      have := hne ' ' (by decide)
      simp [hne ' ' (by decide), hne '\t' (by decide), hne '\n' (by decide),
        hne '\r' (by decide), hne '\x0b' (by decide), hne '\x0c' (by decide)]
    · have hup : Char.toUpper c = c := by
        simp only [Char.toUpper]
        rw [if_neg (by omega)]
      rw [hup]
      exact hne 'N' (by decide)

theorem stringClean_shape (v : List Char) :
    ∃ m, stringClean v = '\'' :: m ++ ['\''] ∧ '\'' ∉ m := by
  refine ⟨_, rfl, ?_⟩
  intro hm
  have h1 := List.mem_filter.mp hm
  have h2 := (List.mem_filter.mp h1.1).2
  simp at h2

/-! ## C1: quote safety of the sanitizer -/

/-- C1: for every input string and optional column type the sanitizer's
output is exactly `NULL`, or a bare numeric literal (containing no quote),
or a single-quoted string whose interior contains no single quote. -/
theorem C1_quote_safety (value : List Char) (columnType : Option (List Char)) :
    sanitizeWithType value columnType = nullLit
    ∨ (matchNumber (sanitizeWithType value columnType) = true
        ∧ '\'' ∉ sanitizeWithType value columnType)
    ∨ ∃ m, sanitizeWithType value columnType = '\'' :: m ++ ['\''] ∧ '\'' ∉ m := by
  cases columnType with
  | some t =>
      simp only [sanitizeWithType]
      by_cases h0 : (pyStrip value).isEmpty = true
      · rw [if_pos h0]; exact Or.inl rfl
      · rw [if_neg h0]
        by_cases h1 : pyUpper (pyStrip value) = nullLit
        · rw [if_pos h1]; exact Or.inl rfl
        · rw [if_neg h1]
          by_cases h2 : (isNumericType t && matchNumber (dequoteOnce (pyStrip value))) = true
          · rw [if_pos h2]
            have hm := ((Bool.and_eq_true _ _).mp h2).2
            exact Or.inr (Or.inl ⟨hm, matchNumber_no_quote _ hm⟩)
          · rw [if_neg h2]
            exact Or.inr (Or.inr (stringClean_shape _))
  | none =>
      simp only [sanitizeWithType]
      by_cases h0 : (pyStrip value).isEmpty = true
      · rw [if_pos h0]; exact Or.inl rfl
      · rw [if_neg h0]
        by_cases h1 : pyUpper (pyStrip value) = nullLit
        · rw [if_pos h1]; exact Or.inl rfl
        · rw [if_neg h1]
          by_cases h2 : matchNumber (dequoteOnce (pyStrip value)) = true
          · rw [if_pos h2]
            exact Or.inr (Or.inl ⟨h2, matchNumber_no_quote _ h2⟩)
          · rw [if_neg h2]
            exact Or.inr (Or.inr (stringClean_shape _))

/-! ## C7: type-aware numeric passthrough -/

theorem collapseWsAux_id (l : List Char) (h : ∀ c ∈ l, isPyWs c = false) :
    ∀ b, collapseWsAux b l = l := by
  induction l with
  | nil => intro b; rfl
  | cons c r ih =>
      intro b
      have hc := h c (List.mem_cons_self c r)
      simp [collapseWsAux, hc, ih (fun x hx => h x (List.mem_cons_of_mem c hx))]

theorem dropWhile_id_of (p : Char → Bool) (l : List Char) (h : ∀ c ∈ l, p c = false) :
    l.dropWhile p = l := by
  cases l with
  | nil => rfl
  | cons c r => rw [List.dropWhile_cons, h c (List.mem_cons_self c r)]; simp

theorem pyStrip_id (l : List Char) (h : ∀ c ∈ l, isPyWs c = false) : pyStrip l = l := by
  unfold pyStrip rdropWhile
  rw [dropWhile_id_of isPyWs l h,
    dropWhile_id_of isPyWs l.reverse (fun c hc => h c (List.mem_reverse.mp hc)),
    List.reverse_reverse]

/-- A value made of sign, dot and digit characters passes through the
string-sanitization pipeline unchanged except for the length truncation. -/
theorem stringClean_of_numchars (w : List Char)
    (h : ∀ c ∈ w, c = '-' ∨ c = '+' ∨ c = '.' ∨ isDig c = true) :
    stringClean w = '\'' :: w.take 65535 ++ ['\''] := by
  have hf := fun c hc => numchar_facts c (h c hc)
  have e1 : w.filter (fun c => !isCtrl1 c) = w :=
    List.filter_eq_self.mpr (fun c hc => by rw [(hf c hc).1]; rfl)
  have e2 : w.filter (fun c => !isCtrl2 c) = w :=
    List.filter_eq_self.mpr (fun c hc => by rw [(hf c hc).2.1]; rfl)
  have e3 : w.map nlToSpace = w :=
    (@List.map_congr_left Char w Char nlToSpace id
      (fun c hc => (hf c hc).2.2.1)).trans (List.map_id w)
  have e4 : collapseWs w = w := collapseWsAux_id w (fun c hc => (hf c hc).2.2.2.1) false
  have e5 : pyStrip w = w := pyStrip_id w (fun c hc => (hf c hc).2.2.2.1)
  have e6 : (w.take 65535).filter (fun c => c ≠ '\'') = w.take 65535 :=
    List.filter_eq_self.mpr (fun c hc => by
      have := (hf c (List.mem_of_mem_take hc)).2.2.2.2.1
      simp [this])
  have e7 : (w.take 65535).filter (fun c => c ≠ '"') = w.take 65535 :=
    List.filter_eq_self.mpr (fun c hc => by
      have := (hf c (List.mem_of_mem_take hc)).2.2.2.2.2.1
      simp [this])
  simp only [stringClean]
  rw [e1, e2, e3, e4, e5, e6, e7]

theorem matchNumber_dequote_ne_nil (l : List Char)
    (h : matchNumber (dequoteOnce l) = true) : l ≠ [] := by
  intro he
  rw [he] at h
  exact absurd h (by decide)

/-- A value whose dequoted form is a numeric literal cannot trip the
`NULL`-literal test of the sanitizer. -/
theorem pyUpper_ne_null (l : List Char)
    (h : matchNumber (dequoteOnce l) = true) : pyUpper l ≠ nullLit := by
  intro hup
  cases l with
  | nil => simp [pyUpper, nullLit] at hup
  | cons a l1 =>
      have hhead : Char.toUpper a = 'N' := by
        have hN : nullLit.head? = some 'N' := by decide
        have := congrArg List.head? hup
        rw [hN] at this
        simpa [pyUpper] using this
      cases hgl : (a :: l1).getLast? with
      | none => simp at hgl
      | some b =>
          by_cases hC : (a = '\'' ∧ b = '\'') ∨ (a = '"' ∧ b = '"')
          · rcases hC with ⟨ha, -⟩ | ⟨ha, -⟩ <;>
              (rw [ha] at hhead; exact absurd hhead (by decide))
          · have hde : dequoteOnce (a :: l1) = a :: l1 := by
              simp only [dequoteOnce, List.head?_cons, hgl]
              rw [if_neg hC]
            rw [hde] at h
            rcases matchNumber_chars _ h a (List.mem_cons_self a l1) with h' | h' | h' | h'
            · rw [h'] at hhead; exact absurd hhead (by decide)
            · rw [h'] at hhead; exact absurd hhead (by decide)
            · rw [h'] at hhead; exact absurd hhead (by decide)
            · exact absurd hhead (numchar_facts a (Or.inr (Or.inr (Or.inr h')))).2.2.2.2.2.2

/-- C7: with a numeric column type a numeric-looking value passes through
unquoted; with a non-numeric column type the value is single-quoted even
when numeric; in particular sanitize of 42 with INT gives bare 42 and with
VARCHAR gives quoted 42. -/
theorem C7_numeric_passthrough (value t : List Char) :
    (isNumericType t = true → matchNumber (dequoteOnce (pyStrip value)) = true →
      sanitizeWithType value (some t) = dequoteOnce (pyStrip value))
    ∧ (isNumericType t = false → matchNumber (dequoteOnce (pyStrip value)) = true →
      sanitizeWithType value (some t)
        = '\'' :: (dequoteOnce (pyStrip value)).take 65535 ++ ['\''])
    ∧ sanitizeWithType "42".toList (some "INT".toList) = "42".toList
    ∧ sanitizeWithType "42".toList (some "VARCHAR(10)".toList) = "'42'".toList := by
  refine ⟨?_, ?_, by decide, by decide⟩
  · intro hnum hmat
    have hne : pyStrip value ≠ [] := matchNumber_dequote_ne_nil _ hmat
    have h0 : ¬((pyStrip value).isEmpty = true) := fun hE => hne (List.isEmpty_iff.mp hE)
    have h1 := pyUpper_ne_null (pyStrip value) hmat
    simp only [sanitizeWithType]
    rw [if_neg h0, if_neg h1, if_pos (by rw [hnum, hmat]; rfl)]
  · intro hnum hmat
    have hne : pyStrip value ≠ [] := matchNumber_dequote_ne_nil _ hmat
    have h0 : ¬((pyStrip value).isEmpty = true) := fun hE => hne (List.isEmpty_iff.mp hE)
    have h1 := pyUpper_ne_null (pyStrip value) hmat
    simp only [sanitizeWithType]
    rw [if_neg h0, if_neg h1, if_neg (by rw [hnum]; simp)]
    exact stringClean_of_numchars _ (matchNumber_chars _ hmat)

/-- C7 witness: 007 with a BIGINT column passes through unquoted, 19.5
with a TEXT column comes back single-quoted. -/
theorem C7_witness :
    sanitizeWithType "007".toList (some "BIGINT".toList) = dequoteOnce (pyStrip "007".toList)
    ∧ sanitizeWithType "19.5".toList (some "TEXT".toList)
      = '\'' :: (dequoteOnce (pyStrip "19.5".toList)).take 65535 ++ ['\''] :=
  ⟨(C7_numeric_passthrough "007".toList "BIGINT".toList).1 (by decide) (by decide),
   (C7_numeric_passthrough "19.5".toList "TEXT".toList).2.1 (by decide) (by decide)⟩

/-! ## C8: schema-parse failure conditions -/

theorem splitOnChar_ne_nil (sep : Char) (l : List Char) : splitOnChar sep l ≠ [] := by
  induction l with
  | nil => simp [splitOnChar]
  | cons c r ih =>
      simp only [splitOnChar]
      by_cases hc : c = sep
      · rw [if_pos hc]; simp
      · rw [if_neg hc]
        cases hr : splitOnChar sep r with
        | nil => exact absurd hr ih
        | cons h t => simp

/-- C8 counterexample: a CREATE TABLE with an empty body parses without
raising but yields an empty column list, and a file whose backtick header
line sits after ten other non-blank lines raises even though the header
line is present. -/
theorem C8_counterexample :
    parseCreateTable "CREATE TABLE t ();".toList = Except.ok ("t".toList, [])
    ∧ parseCreateTable "a\nb\nc\nd\ne\nf\ng\nh\ni\nj\n(`x`, `y`)".toList
        = Except.error "No se pudieron detectar nombres de columnas".toList
    ∧ ("(`x`, `y`)".toList.head? = some '('
        ∧ "(`x`, `y`)".toList.contains btick = true) := by decide

/-- C8 amended: parsing raises exactly when the text has no CREATE TABLE
match and either has no non-blank line or no backtick-bearing
parenthesized line among its first 10 non-blank lines; a successful parse
through the header fallback always returns a non-empty column list, while
a CREATE TABLE match never raises (but may yield an empty list). -/
theorem C8_schema_parse (s : List Char) :
    ((∃ e, parseCreateTable s = Except.error e)
      ↔ searchCreate s = none
        ∧ (((pySplitlines s).map pyStrip).filter (fun l => !l.isEmpty) = []
           ∨ ((((pySplitlines s).map pyStrip).filter (fun l => !l.isEmpty)).take 10).find?
                (fun l => l.head? = some '(' && l.contains btick) = none))
    ∧ (∀ name cols, searchCreate s = none → parseCreateTable s = Except.ok (name, cols)
        → cols ≠ []) := by
  constructor
  · cases hsc : searchCreate s with
    | some nb =>
        obtain ⟨n, b⟩ := nb
        constructor
        · rintro ⟨e, he⟩
          simp only [parseCreateTable, hsc] at he
          exact Except.noConfusion he
        · rintro ⟨h1, -⟩
          exact absurd h1 (by simp)
    | none =>
        have hp : parseCreateTable s = parseFromValues s := by
          simp only [parseCreateTable, hsc]
        rw [hp]
        constructor
        · rintro ⟨e, he⟩
          refine ⟨rfl, ?_⟩
          by_cases hl : ((pySplitlines s).map pyStrip).filter (fun l => !l.isEmpty) = []
          · exact Or.inl hl
          · right
            by_cases hf : ((((pySplitlines s).map pyStrip).filter (fun l => !l.isEmpty)).take 10).find?
                (fun l => l.head? = some '(' && l.contains btick) = none
            · exact hf
            · exfalso
              obtain ⟨colLine, hcl⟩ := Option.ne_none_iff_exists'.mp hf
              simp only [parseFromValues] at he
              rw [if_neg (fun hE => hl (List.isEmpty_iff.mp hE)), hcl] at he
              simp at he
        · rintro ⟨-, hcase⟩
          simp only [parseFromValues]
          by_cases hl : ((pySplitlines s).map pyStrip).filter (fun l => !l.isEmpty) = []
          · exact ⟨_, by rw [if_pos (List.isEmpty_iff.mpr hl)]⟩
          · rcases hcase with hcase | hcase
            · exact absurd hcase hl
            · rw [if_neg (fun hE => hl (List.isEmpty_iff.mp hE)), hcase]
              exact ⟨_, rfl⟩
  · intro name cols hsc hok
    have hp : parseCreateTable s = parseFromValues s := by
      simp only [parseCreateTable, hsc]
    rw [hp] at hok
    simp only [parseFromValues] at hok
    by_cases hl : ((pySplitlines s).map pyStrip).filter (fun l => !l.isEmpty) = []
    · rw [if_pos (List.isEmpty_iff.mpr hl)] at hok
      cases hok
    · rw [if_neg (fun hE => hl (List.isEmpty_iff.mp hE))] at hok
      cases hfind : ((((pySplitlines s).map pyStrip).filter (fun l => !l.isEmpty)).take 10).find?
          (fun l => l.head? = some '(' && l.contains btick) with
      | none => rw [hfind] at hok; cases hok
      | some colLine =>
          rw [hfind] at hok
          have hpair := Except.ok.inj hok
          have hcols : cols = ((splitOnChar ',' (stripChars ['(', ')', ' '] colLine)).map
              (fun part =>
                let p := pyStrip part
                if p.head? = some btick && p.getLast? = some btick then stripChars [btick] p
                else stripChars ['\'', '"'] p)).map (fun n => (n, "VARCHAR(255)".toList)) := by
            have := (Prod.mk.injEq _ _ _ _ ▸ hpair).2
            exact this.symm
          rw [hcols]
          simp only [ne_eq, List.map_eq_nil_iff]
          exact splitOnChar_ne_nil ',' _

/-- C8 witness: a lone backtick header line parses without raising into a
non-empty column list. -/
theorem C8_witness :
    ([("x".toList, "VARCHAR(255)".toList)] : List (List Char × List Char)) ≠ [] :=
  (C8_schema_parse "(`x`)".toList).2 "imported_data".toList _ (by decide) (by decide)

/-! ## C10: CSV header detection -/

/-- Characters that the first-line preprocessing may strip: ASCII
whitespace and the byte-order mark. -/
def junkChar (c : Char) : Bool := isPyWs c || c = '\uFEFF'

theorem containsSub_spec (n : List Char) : ∀ h : List Char,
    (containsSub n h = true ↔ n <:+: h) := by
  intro h
  induction h with
  | nil =>
      simp only [containsSub, List.isEmpty_iff, List.infix_nil]
  | cons c t ih =>
      simp only [containsSub, Bool.or_eq_true, ih, List.isPrefixOf_iff_prefix]
      exact (List.infix_cons_iff).symm

theorem infix_drop_junk_left (n a m : List Char) (hn : n ≠ [])
    (hnj : ∀ c ∈ n, junkChar c = false) (ha : ∀ c ∈ a, junkChar c = true) :
    (n <:+: a ++ m ↔ n <:+: m) := by
  induction a with
  | nil => simp
  | cons c a' ih =>
      have hc := ha c (List.mem_cons_self c a')
      have ihp := ih (fun x hx => ha x (List.mem_cons_of_mem c hx))
      rw [List.cons_append, List.infix_cons_iff]
      constructor
      · rintro (hp | hi)
        · cases n with
          | nil => exact absurd rfl hn
          | cons x xs =>
              have hx := (List.cons_prefix_cons.mp hp).1
              rw [← hx] at hc
              rw [hnj x (List.mem_cons_self x xs)] at hc
              cases hc
        · exact ihp.mp hi
      · intro hi
        exact Or.inr (ihp.mpr hi)

theorem infix_drop_junk_right (n m b : List Char) (hn : n ≠ [])
    (hnj : ∀ c ∈ n, junkChar c = false) (hb : ∀ c ∈ b, junkChar c = true) :
    (n <:+: m ++ b ↔ n <:+: m) := by
  constructor
  · intro h
    have h1 : n.reverse <:+: (m ++ b).reverse := List.reverse_infix.mpr h
    rw [List.reverse_append] at h1
    have h2 := (infix_drop_junk_left n.reverse b.reverse m.reverse
      (fun he => hn (List.reverse_eq_nil_iff.mp he))
      (fun c hc => hnj c (List.mem_reverse.mp hc))
      (fun c hc => hb c (List.mem_reverse.mp hc))).mp h1
    exact List.reverse_infix.mp h2
  · intro h
    exact h.trans (List.prefix_append m b).isInfix

theorem strip_decomp (l : List Char) :
    ∃ a b, l = a ++ pyStrip l ++ b
      ∧ (∀ c ∈ a, isPyWs c = true) ∧ (∀ c ∈ b, isPyWs c = true) := by
  refine ⟨l.takeWhile isPyWs, ((l.dropWhile isPyWs).reverse.takeWhile isPyWs).reverse,
    ?_, fun c hc => List.mem_takeWhile_imp hc,
    fun c hc => List.mem_takeWhile_imp (List.mem_reverse.mp hc)⟩
  conv_lhs => rw [← List.takeWhile_append_dropWhile isPyWs l]
  have hd : l.dropWhile isPyWs
      = pyStrip l ++ ((l.dropWhile isPyWs).reverse.takeWhile isPyWs).reverse := by
    have h1 : (l.dropWhile isPyWs).reverse
        = (l.dropWhile isPyWs).reverse.takeWhile isPyWs
          ++ (l.dropWhile isPyWs).reverse.dropWhile isPyWs :=
      (List.takeWhile_append_dropWhile isPyWs _).symm
    have h2 := congrArg List.reverse h1
    rw [List.reverse_reverse, List.reverse_append] at h2
    exact h2
  rw [List.append_assoc]
  exact congrArg _ hd

theorem junk_toLower_fix (c : Char) (h : junkChar c = true) : Char.toLower c = c := by
  have hm : c ∈ [' ', '\t', '\n', '\r', '\x0b', '\x0c', '\uFEFF'] := by
    simp only [junkChar, Bool.or_eq_true, isPyWs, decide_eq_true_eq] at h
    simp only [List.mem_cons, List.not_mem_nil, or_false]
    tauto
  fin_cases hm <;> decide

/-- Decomposition of the raw first line around its processed core: strip,
BOM removal, strip again only peel junk characters off the two ends. -/
theorem line_decomp (line : List Char) :
    ∃ a b, line = a ++ pyStrip ((pyStrip line).dropWhile (fun c => c = '\uFEFF')) ++ b
      ∧ (∀ c ∈ a, junkChar c = true) ∧ (∀ c ∈ b, junkChar c = true) := by
  obtain ⟨a1, b1, h1, ha1, hb1⟩ := strip_decomp line
  have h2 : pyStrip line
      = (pyStrip line).takeWhile (fun c => c = '\uFEFF')
        ++ (pyStrip line).dropWhile (fun c => c = '\uFEFF') :=
    (List.takeWhile_append_dropWhile _ _).symm
  obtain ⟨a2, b2, h3, ha2, hb2⟩ := strip_decomp ((pyStrip line).dropWhile (fun c => c = '\uFEFF'))
  refine ⟨a1 ++ ((pyStrip line).takeWhile (fun c => c = '\uFEFF') ++ a2), b2 ++ b1, ?_, ?_, ?_⟩
  · conv_lhs => rw [h1, h2, h3]
    simp [List.append_assoc]
  · intro c hc
    rcases List.mem_append.mp hc with hc | hc
    · simp [junkChar, ha1 c hc]
    · rcases List.mem_append.mp hc with hc | hc
      · have := List.mem_takeWhile_imp hc
        simp only [decide_eq_true_eq] at this
        simp [junkChar, this]
      · simp [junkChar, ha2 c hc]
  · intro c hc
    rcases List.mem_append.mp hc with hc | hc
    · simp [junkChar, hb2 c hc]
    · simp [junkChar, hb1 c hc]

/-- Indicator containment is invariant under the first-line preprocessing
of `detect_header`. -/
theorem containsSub_strip_lower (line ind : List Char) (hne : ind ≠ [])
    (hj : ∀ c ∈ ind, junkChar c = false) :
    containsSub ind (pyLower (pyStrip ((pyStrip line).dropWhile (fun c => c = '\uFEFF'))))
      = containsSub ind (pyLower line) := by
  obtain ⟨a, b, hline, ha, hb⟩ := line_decomp line
  have hlow : pyLower line
      = pyLower a ++ pyLower (pyStrip ((pyStrip line).dropWhile (fun c => c = '\uFEFF')))
        ++ pyLower b := by
    conv_lhs => rw [hline]
    simp [pyLower]
  have hja : ∀ c ∈ pyLower a, junkChar c = true := by
    intro c hc
    obtain ⟨c', hc', hcc⟩ := List.mem_map.mp hc
    have hjc := ha c' hc'
    rw [← hcc, junk_toLower_fix c' hjc]
    exact hjc
  have hjb : ∀ c ∈ pyLower b, junkChar c = true := by
    intro c hc
    obtain ⟨c', hc', hcc⟩ := List.mem_map.mp hc
    have hjc := hb c' hc'
    rw [← hcc, junk_toLower_fix c' hjc]
    exact hjc
  apply Bool.eq_iff_iff.mpr
  rw [containsSub_spec, containsSub_spec, hlow, List.append_assoc,
    infix_drop_junk_left ind (pyLower a) _ hne hj hja,
    infix_drop_junk_right ind _ (pyLower b) hne hj hjb]

/-- The nine data indicators are non-empty and junk-free. -/
theorem indicators_not_junk :
    ∀ ind ∈ dataIndicators, ind ≠ [] ∧ ∀ c ∈ ind, junkChar c = false := by decide

/-- C10: the header detector returns row 0 whenever the first-line read
fails, and reports a headerless CSV exactly when the first line contains,
case-insensitively, at least one of the data-indicator substrings. -/
theorem C10_header_detection :
    detectHeader (Except.error ()) = some 0
    ∧ ∀ line : List Char,
        (detectHeader (Except.ok line) = none
          ↔ ∃ ind ∈ dataIndicators, containsSub ind (pyLower line) = true) := by
  refine ⟨rfl, ?_⟩
  intro line
  have key : ∀ ind ∈ dataIndicators,
      containsSub ind (pyLower (pyStrip ((pyStrip line).dropWhile (fun c => c = '\uFEFF'))))
        = containsSub ind (pyLower line) := fun ind hind =>
    containsSub_strip_lower line ind (indicators_not_junk ind hind).1
      (indicators_not_junk ind hind).2
  show (detectHeaderLine line = none ↔ _)
  simp only [detectHeaderLine]
  constructor
  · intro h
    by_cases hP : 0 < (dataIndicators.filter (fun ind =>
        containsSub ind (pyLower (pyStrip ((pyStrip line).dropWhile
          (fun c => c = '\uFEFF')))))).length
    · have hne : dataIndicators.filter (fun ind =>
          containsSub ind (pyLower (pyStrip ((pyStrip line).dropWhile
            (fun c => c = '\uFEFF'))))) ≠ [] := List.length_pos.mp hP
      obtain ⟨ind, hindmem⟩ := List.exists_mem_of_ne_nil _ hne
      have h1 := List.mem_filter.mp hindmem
      refine ⟨ind, h1.1, ?_⟩
      rw [← key ind h1.1]
      exact h1.2
    · rw [if_neg hP] at h
      cases h
  · rintro ⟨ind, hmem, hcon⟩
    have hc2 : containsSub ind (pyLower (pyStrip ((pyStrip line).dropWhile
        (fun c => c = '\uFEFF')))) = true := by
      rw [key ind hmem]
      exact hcon
    have hP : 0 < (dataIndicators.filter (fun ind =>
        containsSub ind (pyLower (pyStrip ((pyStrip line).dropWhile
          (fun c => c = '\uFEFF')))))).length :=
      List.length_pos.mpr (List.ne_nil_of_mem (List.mem_filter.mpr ⟨hmem, hc2⟩))
    rw [if_pos hP]

end Normalized
